import Mathlib

/-!
Verification of the Fashion Studio ETL pipeline (extraction and
normalization core).

The embedding models Python/pandas values with an explicit dynamic cell
type: a DataFrame cell is either absent (the record's dict lacked the
key, so pandas fills NaN), a Python `None`, a string, a float (modelled
exactly as a rational), or an int.  Records are rows with the seven
fixed fields of the pipeline's data model.  Numeric parsing is modelled
over ℚ, so decimal arithmetic is exact.
-/

namespace EtlFashion

instance {ε α : Type} [DecidableEq ε] [DecidableEq α] : DecidableEq (Except ε α)
  | .error x, .error y =>
    decidable_of_iff (x = y) ⟨fun h => h ▸ rfl, fun h => by cases h; rfl⟩
  | .error _, .ok _ => .isFalse (fun h => by cases h)
  | .ok _, .error _ => .isFalse (fun h => by cases h)
  | .ok x, .ok y =>
    decidable_of_iff (x = y) ⟨fun h => h ▸ rfl, fun h => by cases h; rfl⟩

/-- A dynamic Python/pandas cell value.  `absent` is a key missing from the
scraped dict (NaN in the DataFrame); `pyNone` is a present key holding
Python `None`. -/
inductive Cell where
  | absent : Cell
  | pyNone : Cell
  | pyStr : String → Cell
  | pyNum : ℚ → Cell
  | pyInt : ℤ → Cell
deriving DecidableEq

/-- One row of the working DataFrame: the seven fields used by the
pipeline (`Title`, `Price`, `Rating`, `Colors`, `Size`, `Gender`,
`timestamp`). -/
structure Rec where
  title : Cell
  price : Cell
  rating : Cell
  colors : Cell
  size : Cell
  gender : Cell
  timestamp : Cell
deriving DecidableEq

/-- Python whitespace stripped by `str.strip()` (ASCII part). -/
def pySpace (c : Char) : Bool :=
  c = ' ' || c = '\t' || c = '\n' || c = '\r' || c = '\x0b' || c = '\x0c'

/-- `str.strip()`: drop leading and trailing whitespace. -/
def pyStrip (l : List Char) : List Char :=
  ((l.dropWhile pySpace).reverse.dropWhile pySpace).reverse

/-- Python's `needle in haystack` substring test. -/
def listHasSub (p l : List Char) : Bool :=
  (List.range (l.length + 1)).any (fun i => p.isPrefixOf (l.drop i))

/-- Fuel-driven worker for `replaceAll`.  The fuel starts at the list
length and stays an upper bound for the remaining length, since each
step consumes at least one character. -/
def replaceAllAux (pat rep : List Char) : ℕ → List Char → List Char
  | 0, _ => []
  | _ + 1, [] => []
  | n + 1, c :: cs =>
    if pat ≠ [] && pat.isPrefixOf (c :: cs) then
      rep ++ replaceAllAux pat rep n ((c :: cs).drop pat.length)
    else
      c :: replaceAllAux pat rep n cs

/-- Python's `str.replace(pat, rep)`: replace all non-overlapping
occurrences, scanning left to right. -/
def replaceAll (pat rep l : List Char) : List Char :=
  replaceAllAux pat rep l.length l

/-- Lower-casing for the case-insensitive substring checks of the spec. -/
def lowerL (l : List Char) : List Char := l.map Char.toLower

/-- A character matched by the `[\d,]` class of the price regex. -/
def isTokChar (c : Char) : Bool := c.isDigit || c = ','

/-- Greedy tail of the price pattern starting at a `[\d,]` character:
`[\d,]+\.?\d*`. -/
def grabPrice (l : List Char) : List Char :=
  match l.drop (l.takeWhile isTokChar).length with
  | '.' :: r2 => l.takeWhile isTokChar ++ '.' :: r2.takeWhile Char.isDigit
  | _ => l.takeWhile isTokChar

/-- `re.search(r'\$?([\d,]+\.?\d*)', s)`: the captured group of the
leftmost match.  A match's group always starts at the first `[\d,]`
character (the optional `\$?` never changes the group), so the leftmost
match is found by scanning for the first such character. -/
def priceTok : List Char → Option (List Char)
  | [] => none
  | c :: cs => if isTokChar c then some (grabPrice (c :: cs)) else priceTok cs

/-- Greedy `\d+\.?\d*` token starting at a digit. -/
def grabNum (l : List Char) : List Char :=
  match l.drop (l.takeWhile Char.isDigit).length with
  | '.' :: r2 => l.takeWhile Char.isDigit ++ '.' :: r2.takeWhile Char.isDigit
  | _ => l.takeWhile Char.isDigit

/-- `re.search(r'(\d+\.?\d*)', s)`: captured group of the leftmost
match. -/
def numTok : List Char → Option (List Char)
  | [] => none
  | c :: cs => if c.isDigit then some (grabNum (c :: cs)) else numTok cs

/-- `re.search(r'(\d+)', s)`: first maximal digit run. -/
def digitsTok : List Char → Option (List Char)
  | [] => none
  | c :: cs =>
    if c.isDigit then some ((c :: cs).takeWhile Char.isDigit) else digitsTok cs

/-- The `\s*/\s*5` tail of the rating pattern, applied after the
captured numeric token. -/
def ratingSlash (tok rest : List Char) : Option (List Char) :=
  match rest.dropWhile pySpace with
  | '/' :: r4 =>
    match r4.dropWhile pySpace with
    | '5' :: _ => some tok
    | _ => none
  | _ => none

/-- Attempt of `(\d+\.?\d*)\s*/\s*5` anchored at a digit position.  The
pattern's optional pieces are all followed by characters a digit cannot
satisfy, so greedy matching without backtracking is exact. -/
def tryRating (l : List Char) : Option (List Char) :=
  match l.drop (l.takeWhile Char.isDigit).length with
  | '.' :: rr =>
    ratingSlash (l.takeWhile Char.isDigit ++ '.' :: rr.takeWhile Char.isDigit)
      (rr.drop (rr.takeWhile Char.isDigit).length)
  | r1 => ratingSlash (l.takeWhile Char.isDigit) r1

/-- `re.search(r'(\d+\.?\d*)\s*/\s*5', s)`: captured group of the
leftmost match, scanning candidate start positions left to right. -/
def ratingTok : List Char → Option (List Char)
  | [] => none
  | c :: cs =>
    if c.isDigit then
      match tryRating (c :: cs) with
      | some tok => some tok
      | none => ratingTok cs
    else ratingTok cs

/-- Numeric value of a digit run. -/
def digitsToNat (l : List Char) : ℕ :=
  l.foldl (fun a c => a * 10 + (c.toNat - '0'.toNat)) 0

/-- Python `float(s)` on the token shapes produced by the regexes:
optional digits, optional dot, optional digits, needing at least one
digit overall.  `float("")` and `float(".")` raise, modelled as `none`. -/
def parseDecAux (ip rest : List Char) : Option ℚ :=
  match rest with
  | [] => if ip = [] then none else some (digitsToNat ip)
  | '.' :: fp =>
    if fp.all Char.isDigit then
      if ip = [] && fp = [] then none
      else some (mkRat (digitsToNat ip * 10 ^ fp.length + digitsToNat fp) (10 ^ fp.length))
    else none
  | _ => none

def parseDec (l : List Char) : Option ℚ :=
  parseDecAux (l.takeWhile Char.isDigit) (l.drop (l.takeWhile Char.isDigit).length)

/-- Exchange rate: 1 USD = 16,000 IDR (module constant of the source). -/
def USD_TO_IDR_RATE : ℤ := 16000

/-- Exact scaling of a rational by the conversion rate
(`price_usd * USD_TO_IDR_RATE`), written as one `mkRat` so that the
kernel can evaluate it (ℚ multiplication is irreducible). -/
def mulRate (q : ℚ) : ℚ := mkRat (q.num * USD_TO_IDR_RATE) q.den

/-- `clean_price` (transform.py lines 14-47).  Non-strings and the empty
string return `None`; the stripped text is checked for the literal
substrings `Unavailable` / `unavailable`; otherwise the first
`\$?([\d,]+\.?\d*)` token has its commas stripped, is parsed, and is
multiplied by the rate.  `float` on a digit-free token raises, re-raised
as `ValueError` — the `.error` case. -/
def clean_price : Cell → Except Unit Cell
  | .pyStr s =>
    if s = "" then .ok .pyNone
    else
      if listHasSub "Unavailable".toList (pyStrip s.toList) ||
         listHasSub "unavailable".toList (pyStrip s.toList) then
        .ok .pyNone
      else
        match priceTok (pyStrip s.toList) with
        | none => .ok .pyNone
        | some tok =>
          match parseDec (tok.filter (fun c => c ≠ ',')) with
          | none => .error ()
          | some q => .ok (.pyNum (mulRate q))
  | _ => .ok .pyNone

/-- `clean_rating` (transform.py lines 50-86): strip, reject text
containing `Invalid` or `Not Rated`, then the `(\d+\.?\d*)\s*/\s*5`
pattern, falling back to the first bare numeric token. -/
def clean_rating : Cell → Except Unit Cell
  | .pyStr s =>
    if s = "" then .ok .pyNone
    else
      let t := pyStrip s.toList
      if listHasSub "Invalid".toList t || listHasSub "Not Rated".toList t then
        .ok .pyNone
      else
        match ratingTok t with
        | some tok =>
          match parseDec tok with
          | none => .error ()
          | some q => .ok (.pyNum q)
        | none =>
          match numTok t with
          | some tok =>
            match parseDec tok with
            | none => .error ()
            | some q => .ok (.pyNum q)
          | none => .ok .pyNone
  | _ => .ok .pyNone

/-- `clean_colors` (transform.py lines 89-116): first digit run as an
integer.  `int` on a digit run never fails. -/
def clean_colors : Cell → Except Unit Cell
  | .pyStr s =>
    if s = "" then .ok .pyNone
    else
      let t := pyStrip s.toList
      match digitsTok t with
      | some tok => .ok (.pyInt (digitsToNat tok))
      | none => .ok .pyNone
  | _ => .ok .pyNone

/-- `clean_size` (transform.py lines 119-147): strip, delete all
occurrences of the literal `Size:`, strip again; empty remainder is
`None`. -/
def clean_size : Cell → Except Unit Cell
  | .pyStr s =>
    if s = "" then .ok .pyNone
    else
      let t := pyStrip (replaceAll "Size:".toList [] (pyStrip s.toList))
      if t = [] then .ok .pyNone else .ok (.pyStr (String.mk t))
  | _ => .ok .pyNone

/-- `clean_gender` (transform.py lines 150-178): same shape as
`clean_size` with the `Gender:` label. -/
def clean_gender : Cell → Except Unit Cell
  | .pyStr s =>
    if s = "" then .ok .pyNone
    else
      let t := pyStrip (replaceAll "Gender:".toList [] (pyStrip s.toList))
      if t = [] then .ok .pyNone else .ok (.pyStr (String.mk t))
  | _ => .ok .pyNone

/-- Errors surfaced by `transform_data`: the empty-input `ValueError`, a
pandas `KeyError` for a column absent from the constructed DataFrame,
and the `ValueError` re-raised out of a cleaner. -/
inductive TransformErr where
  | invalidArgument : TransformErr
  | keyError : TransformErr
  | cleanError : TransformErr
deriving DecidableEq

/-- `pd.DataFrame(list_of_dicts)` has a column iff some dict has the
key; records lacking it get NaN (`absent`). -/
def hasCol (data : List Rec) (f : Rec → Cell) : Bool :=
  data.any (fun r => f r ≠ Cell.absent)

/-- `df[col] = df[col].apply(clean)`: apply a cleaner cell-wise down one
column, writing the result back; the first raising cell aborts. -/
def applyCol (clean : Cell → Except Unit Cell) (get : Rec → Cell)
    (set : Rec → Cell → Rec) : List Rec → Except Unit (List Rec)
  | [] => .ok []
  | r :: rs =>
    match clean (get r) with
    | .error e => .error e
    | .ok c =>
      match applyCol clean get set rs with
      | .error e => .error e
      | .ok l => .ok (set r c :: l)

/-- A cell pandas counts as null: NaN (absent key) or Python `None`. -/
def isNull : Cell → Bool
  | .absent => true
  | .pyNone => true
  | _ => false

/-- Worker for `pdDedup`: drop any row equal to one already seen. -/
def pdDedupAux (seen : List Rec) : List Rec → List Rec
  | [] => []
  | r :: rs =>
    if r ∈ seen then pdDedupAux seen rs else r :: pdDedupAux (r :: seen) rs

/-- `df.drop_duplicates()`: keep the first occurrence of each row
(full-row equality). -/
def pdDedup (l : List Rec) : List Rec := pdDedupAux [] l

/-- `df.dropna()` keeps a row iff no existing column holds a null there;
`tsCol` records whether the `timestamp` column exists in the frame. -/
def keep_row (tsCol : Bool) (r : Rec) : Bool :=
  !(isNull r.title || isNull r.price || isNull r.rating || isNull r.colors ||
    isNull r.size || isNull r.gender || (tsCol && isNull r.timestamp))

/-- `astype(str)` on one cell.  (The numeric branches approximate
Python's decimal rendering; on the pipeline's data they are never
reached, since titles, sizes and genders are strings.) -/
def asStr : Cell → Cell
  | .pyInt n => .pyStr (toString n)
  | .pyNum q => .pyStr (toString q)
  | c => c

/-- `astype(float)` on one cell. -/
def asFloat : Cell → Cell
  | .pyInt n => .pyNum n
  | c => c

/-- `astype(int)` on one cell (Python `int()` truncates toward zero). -/
def asInt : Cell → Cell
  | .pyNum q => .pyInt (q.num.tdiv q.den)
  | c => c

/-- Lines 224-229: coerce the final column types. -/
def astypes (r : Rec) : Rec :=
  { r with
    title := asStr r.title
    price := asFloat r.price
    rating := asFloat r.rating
    colors := asInt r.colors
    size := asStr r.size
    gender := asStr r.gender }

/-- Line 232: the fixed final column order. -/
def columns_order : List String :=
  ["Title", "Price", "Rating", "Colors", "Size", "Gender", "timestamp"]

/-- The row as the reordered DataFrame presents it: the seven named
columns in the order of `columns_order`. -/
def rec_row (r : Rec) : List (String × Cell) :=
  [("Title", r.title), ("Price", r.price), ("Rating", r.rating),
   ("Colors", r.colors), ("Size", r.size), ("Gender", r.gender),
   ("timestamp", r.timestamp)]

/-- `transform_data` (transform.py lines 181-245).  Empty input raises
`ValueError`; each of the five cleaners is applied column-wise (the
column access raises `KeyError` if no input dict had the key; pandas
fixes the column set when the DataFrame is built, so the checks read the
original `data`); rows titled `Unknown Product` are dropped, then rows
with any null in an existing column, then duplicate rows (first
occurrence kept); types are coerced; the final column reorder raises
`KeyError` when `timestamp` never occurred. -/
def transform_data (data : List Rec) : Except TransformErr (List Rec) :=
  if data.isEmpty then .error .invalidArgument
  else if ¬ hasCol data (fun r => r.price) then .error .keyError
  else
    match applyCol clean_price (fun r => r.price) (fun r c => { r with price := c }) data with
    | .error _ => .error .cleanError
    | .ok d1 =>
      if ¬ hasCol data (fun r => r.rating) then .error .keyError
      else
        match applyCol clean_rating (fun r => r.rating) (fun r c => { r with rating := c }) d1 with
        | .error _ => .error .cleanError
        | .ok d2 =>
          if ¬ hasCol data (fun r => r.colors) then .error .keyError
          else
            match applyCol clean_colors (fun r => r.colors) (fun r c => { r with colors := c }) d2 with
            | .error _ => .error .cleanError
            | .ok d3 =>
              if ¬ hasCol data (fun r => r.size) then .error .keyError
              else
                match applyCol clean_size (fun r => r.size) (fun r c => { r with size := c }) d3 with
                | .error _ => .error .cleanError
                | .ok d4 =>
                  if ¬ hasCol data (fun r => r.gender) then .error .keyError
                  else
                    match applyCol clean_gender (fun r => r.gender) (fun r c => { r with gender := c }) d4 with
                    | .error _ => .error .cleanError
                    | .ok d5 =>
                      if ¬ hasCol data (fun r => r.title) then .error .keyError
                      else if ¬ hasCol data (fun r => r.timestamp) then .error .keyError
                      else
                        .ok ((pdDedup
                          ((d5.filter (fun r => r.title ≠ Cell.pyStr "Unknown Product")).filter
                            (keep_row (hasCol data (fun r => r.timestamp))))).map astypes)

/-- Errors of the page fetcher. -/
inductive ExtractErr where
  | invalidArgument : ExtractErr
  | fetchError : ExtractErr
deriving DecidableEq

/-- The catalog's root address (extract.py line 15). -/
def BASE_URL : String := "https://fashion-studio.dicoding.dev/"

/-- URL construction of `fetch_page` (lines 42-45): page 1 is the root,
pages 2..50 append `page{N}`. -/
def page_url (p : ℤ) : String :=
  if p = 1 then BASE_URL else BASE_URL ++ "page" ++ toString p

/-- `fetch_page` (extract.py lines 24-54).  The network is an oracle
from URL to response body (`none` = transport failure).  The result also
carries the list of URLs actually requested, so "no network access" is
the empty request log.  The source raises `ValueError` for an
out-of-range page number before building the URL; the outer handler
re-raises it wrapped in a generic `Exception` keeping the message, which
the model keeps as the `invalidArgument` kind. -/
def fetch_page (net : String → Option String) (p : ℤ) :
    Except ExtractErr String × List String :=
  if p < 1 ∨ p > 50 then (.error .invalidArgument, [])
  else
    match net (page_url p) with
    | some body => (.ok body, [page_url p])
    | none => (.error .fetchError, [page_url p])

/-- One located product card, as the HTML parser exposes it to
`parse_product` (the BeautifulSoup location of nodes is external and
abstracted): the `h3.product-title` text if present, the
`div.price-container` sub-region (itself holding an optional
`span.price` text), the fallback flat `p.price` text, and the uniformly
styled detail fragments in document order (texts already stripped, as
`get_text(strip=True)` returns them). -/
structure Card where
  title : Option String
  priceContainer : Option (Option String)
  priceAlt : Option String
  details : List String
deriving DecidableEq

/-- `parse_product` (extract.py lines 56-113).  A card without a title
raises `ValueError`.  The price is the container's span text when the
container exists (else Python `None`), otherwise the flat price text.
Each detail fragment is classified by first-matching substring; a dict
key assigned twice keeps the last assignment.  If no fragment matched
`Rating:`, a second pass re-scans for `Rated` or `Rating`. -/
def parse_product (c : Card) : Except Unit Rec :=
  match c.title with
  | none => .error ()
  | some t =>
    let price : Cell :=
      match c.priceContainer with
      | some sp => match sp with | some s => .pyStr s | none => .pyNone
      | none => match c.priceAlt with | some s => .pyStr s | none => .pyNone
    let r0 : Rec :=
      { title := .pyStr t, price := price, rating := .absent, colors := .absent,
        size := .absent, gender := .absent, timestamp := .absent }
    let r1 := c.details.foldl (fun r txt =>
      if listHasSub "Rating:".toList txt.toList then { r with rating := .pyStr txt }
      else if listHasSub "Colors".toList txt.toList then { r with colors := .pyStr txt }
      else if listHasSub "Size:".toList txt.toList then { r with size := .pyStr txt }
      else if listHasSub "Gender:".toList txt.toList then { r with gender := .pyStr txt }
      else r) r0
    let r2 :=
      if r1.rating = Cell.absent then
        c.details.foldl (fun r txt =>
          if listHasSub "Rated".toList txt.toList || listHasSub "Rating".toList txt.toList then
            { r with rating := .pyStr txt }
          else r) r1
      else r1
    .ok r2

/-- `parse_page` (extract.py lines 115-151), given the cards located in
the markup (the non-empty-string check on the raw HTML and the soup
construction are abstracted away).  Zero cards raise `ValueError`
("No product cards found"); otherwise each card is parsed, failures are
logged and skipped, and the survivors are returned in order. -/
def parse_page (cards : List Card) : Except Unit (List Rec) :=
  if cards.isEmpty then .error ()
  else .ok (cards.filterMap (fun c => (parse_product c).toOption))

/-- Stamping of line 184: `product['timestamp'] = timestamp`. -/
def stamp (ts : String) (r : Rec) : Rec := { r with timestamp := .pyStr ts }

/-- One iteration of the scrape loop (lines 175-194): fetch the page
(`none` models a page whose fetch raised), parse it, stamp every record
with the run timestamp and append; any failure skips the page. -/
def scrape_step (pg : ℤ → Option (List Card)) (ts : String) (sp : ℤ)
    (acc : List Rec) (i : ℕ) : List Rec :=
  match pg (sp + i) with
  | none => acc
  | some cards =>
    match parse_page cards with
    | .error _ => acc
    | .ok prods => acc ++ prods.map (stamp ts)

/-- `scrape_all_pages` (extract.py lines 153-200).  The per-page work of
fetch + soup is the oracle `pg` (`none` = the page's fetch raised); the
single `datetime.now()` of line 173 is the `ts` parameter, read once per
run.  An invalid range raises before any page work; each page in range
is fetched, parsed, its records stamped with the one run timestamp and
accumulated; any page failure is caught and the page skipped. -/
def scrape_all_pages (pg : ℤ → Option (List Card)) (ts : String)
    (start_page end_page : ℤ) : Except Unit (List Rec) :=
  if start_page < 1 ∨ end_page > 50 ∨ start_page > end_page then .error ()
  else
    .ok ((List.range (end_page + 1 - start_page).toNat).foldl
      (scrape_step pg ts start_page) [])

/-- Modelled from the spec: the reference `clean_price` of §4.3 — trim;
absent/empty is missing; text containing "unavailable"
*case-insensitively* is missing; otherwise the first
`\$?([\d,]+\.?\d*)` token, commas stripped, parsed as a decimal and
multiplied by the fixed rate; no match (or unparseable token, as the
reference never raises) is missing. -/
def clean_price_spec : Cell → Cell
  | .pyStr s =>
    if pyStrip s.toList = [] then .pyNone
    else if listHasSub (lowerL "unavailable".toList) (lowerL (pyStrip s.toList)) then .pyNone
    else
      match priceTok (pyStrip s.toList) with
      | none => .pyNone
      | some tok =>
        match parseDec (tok.filter (fun c => c ≠ ',')) with
        | none => .pyNone
        | some q => .pyNum (mulRate q)
  | _ => .pyNone

/-- The inputs on which `clean_price` raises: a string whose first price
token strips to something `float` cannot parse (no digit: only commas,
or commas and a dot). -/
def price_token_unparseable : Cell → Bool
  | .pyStr s =>
    if s = "" then false
    else
      if listHasSub "Unavailable".toList (pyStrip s.toList) ||
         listHasSub "unavailable".toList (pyStrip s.toList) then false
      else
        match priceTok (pyStrip s.toList) with
        | none => false
        | some tok => (parseDec (tok.filter (fun c => c ≠ ','))).isNone
  | _ => false

/-- A raw scraped cell: text, Python `None`, or an absent key (the shape
of every `RawProductRecord` field in the data model). -/
def rawCell : Cell → Bool
  | .pyStr _ => true
  | .pyNone => true
  | .absent => true
  | _ => false

/-- A raw scraped record, all seven fields raw text or missing. -/
def raw_record (r : Rec) : Bool :=
  rawCell r.title && rawCell r.price && rawCell r.rating && rawCell r.colors &&
    rawCell r.size && rawCell r.gender && rawCell r.timestamp

/-- Possible `clean_price` outputs: a number or missing. -/
def numOrNull : Cell → Bool
  | .pyNum _ => true
  | .pyNone => true
  | _ => false

/-- Possible `clean_rating` outputs: a nonnegative number or missing. -/
def ratingOrNull : Cell → Bool
  | .pyNum q => decide (0 ≤ q)
  | .pyNone => true
  | _ => false

/-- Possible `clean_colors` outputs: a nonnegative integer or missing. -/
def intOrNull : Cell → Bool
  | .pyInt n => decide (0 ≤ n)
  | .pyNone => true
  | _ => false

/-- Possible `clean_size`/`clean_gender` outputs: text or missing. -/
def strOrNull : Cell → Bool
  | .pyStr _ => true
  | .pyNone => true
  | _ => false

/-- A string cell. -/
def isStr : Cell → Bool
  | .pyStr _ => true
  | _ => false

/-- A numeric (float) cell. -/
def isNum : Cell → Bool
  | .pyNum _ => true
  | _ => false

/-- An integer cell. -/
def isInt : Cell → Bool
  | .pyInt _ => true
  | _ => false

/-- No pandas-null cell anywhere in the row. -/
def no_nulls (r : Rec) : Bool :=
  !isNull r.title && !isNull r.price && !isNull r.rating && !isNull r.colors &&
    !isNull r.size && !isNull r.gender && !isNull r.timestamp

/-- The nonnegative-rating bound on one output cell. -/
def ratingNonneg (r : Rec) : Prop := ∃ q : ℚ, r.rating = Cell.pyNum q ∧ 0 ≤ q

/-- A raw scraped record as the sample data of the source uses it. -/
def rawSample : Rec :=
  { title := .pyStr "T-shirt 2", price := .pyStr "$102.15",
    rating := .pyStr "Rating: 3.9 / 5", colors := .pyStr "3 Colors",
    size := .pyStr "Size: M", gender := .pyStr "Gender: Women",
    timestamp := .pyStr "2025-01-02 10:00:00" }

/-- The cleaned row `transform_data` produces from `rawSample`. -/
def cleanSample : Rec :=
  { title := .pyStr "T-shirt 2", price := .pyNum 1634400,
    rating := .pyNum (mkRat 39 10), colors := .pyInt 3,
    size := .pyStr "M", gender := .pyStr "Women",
    timestamp := .pyStr "2025-01-02 10:00:00" }

/-- A located card with full data, used as concrete input. -/
def cardSample : Card :=
  { title := some "T-shirt 2", priceContainer := some (some "$102.15"),
    priceAlt := none,
    details := ["Rating: 3.9 / 5", "3 Colors", "Size: M", "Gender: Women"] }

/-- The record `parse_product` extracts from `cardSample`. -/
def parsedSample : Rec :=
  { title := .pyStr "T-shirt 2", price := .pyStr "$102.15",
    rating := .pyStr "Rating: 3.9 / 5", colors := .pyStr "3 Colors",
    size := .pyStr "Size: M", gender := .pyStr "Gender: Women",
    timestamp := .absent }

/-- `parsedSample` once the scrape run stamps it. -/
def scrapedSample : Rec := { parsedSample with timestamp := .pyStr "2025-01-02 10:00:00" }

/-- A located card whose title heading is missing. -/
def noTitleCard : Card :=
  { title := none, priceContainer := none, priceAlt := none, details := [] }

/-- A raw record whose dict has no `Rating` key at all. -/
def noRatingRec : Rec := { rawSample with rating := .absent }

/-! ### Lemmas on the substring test and decimal parsing -/

theorem listHasSub_iff {p l : List Char} :
    listHasSub p l = true ↔ ∃ a b, l = a ++ p ++ b := by
  constructor
  · intro h
    obtain ⟨i, hi, hpre⟩ := List.any_eq_true.mp h
    rw [List.isPrefixOf_iff_prefix] at hpre
    obtain ⟨b, hb⟩ := hpre
    exact ⟨l.take i, b, by rw [List.append_assoc, hb, List.take_append_drop]⟩
  · rintro ⟨a, b, rfl⟩
    refine List.any_eq_true.mpr ⟨a.length, ?_, ?_⟩
    · refine List.mem_range.mpr ?_
      simp only [List.length_append]
      omega
    · rw [List.append_assoc, List.drop_left, List.isPrefixOf_iff_prefix]
      exact ⟨b, rfl⟩

theorem listHasSub_lower {p l : List Char} (h : listHasSub p l = true) :
    listHasSub (lowerL p) (lowerL l) = true := by
  obtain ⟨a, b, rfl⟩ := listHasSub_iff.mp h
  refine listHasSub_iff.mpr ⟨lowerL a, lowerL b, ?_⟩
  simp [lowerL]

theorem takeWhile_all_eq {p : Char → Bool} :
    ∀ {d : List Char}, (∀ x ∈ d, p x = true) → d.takeWhile p = d := by
  intro d
  induction d with
  | nil => intro _; rfl
  | cons c cs ih =>
    intro hall
    rw [List.takeWhile_cons, hall c (by simp)]
    simp [ih (fun x hx => hall x (by simp [hx]))]

theorem takeWhile_append_stop {p : Char → Bool} {d rest : List Char}
    (hd : ∀ x ∈ d, p x = true)
    (hrest : ∀ y, rest.head? = some y → p y = false) :
    (d ++ rest).takeWhile p = d := by
  induction d with
  | nil =>
    cases rest with
    | nil => rfl
    | cons y ys =>
      simp only [List.nil_append, List.takeWhile_cons, hrest y rfl]
      simp
  | cons c cs ih =>
    have hc : p c = true := hd c (by simp)
    simp [List.takeWhile_cons, hc, ih (fun x hx => hd x (by simp [hx]))]

set_option maxHeartbeats 1000000 in
theorem parseDecAux_nonneg {ip rest : List Char} {q : ℚ}
    (h : parseDecAux ip rest = some q) : 0 ≤ q := by
  unfold parseDecAux at h
  split at h
  · split at h
    · exact Option.noConfusion h
    · injection h with h
      rw [← h]
      exact Nat.cast_nonneg _
  · split at h
    · split at h
      · exact Option.noConfusion h
      · injection h with h
        rw [← h]
        exact Rat.mkRat_nonneg (by positivity) _
    · exact Option.noConfusion h
  · exact Option.noConfusion h

theorem parseDec_nonneg {l : List Char} {q : ℚ} (h : parseDec l = some q) :
    0 ≤ q := parseDecAux_nonneg h

theorem parseDec_all_digits {l : List Char} (hne : l ≠ [])
    (hall : ∀ x ∈ l, Char.isDigit x = true) : (parseDec l).isSome := by
  unfold parseDec
  have ht : l.takeWhile Char.isDigit = l := takeWhile_all_eq hall
  rw [ht, List.drop_length]
  simp [parseDecAux, hne]

theorem parseDec_digits_dot {d f : List Char} (hd : d ≠ [])
    (hdd : ∀ x ∈ d, Char.isDigit x = true)
    (hf : ∀ x ∈ f, Char.isDigit x = true) :
    (parseDec (d ++ '.' :: f)).isSome := by
  unfold parseDec
  have ht : (d ++ '.' :: f).takeWhile Char.isDigit = d :=
    takeWhile_append_stop hdd (by intro y hy; cases hy; rfl)
  rw [ht, List.drop_left]
  simp [parseDecAux, List.all_eq_true.mpr hf, hd]

/-! ### The regex tokens always parse -/

theorem grabNum_parse {c : Char} {cs : List Char} (hc : c.isDigit = true) :
    (parseDec (grabNum (c :: cs))).isSome := by
  have hd1 : (c :: cs).takeWhile Char.isDigit = c :: cs.takeWhile Char.isDigit := by
    simp [List.takeWhile_cons, hc]
  have hne : (c :: cs).takeWhile Char.isDigit ≠ [] := by simp [hd1]
  have hall : ∀ x ∈ (c :: cs).takeWhile Char.isDigit, Char.isDigit x = true :=
    fun x hx => List.mem_takeWhile_imp hx
  unfold grabNum
  split
  · exact parseDec_digits_dot hne hall (fun x hx => List.mem_takeWhile_imp hx)
  · exact parseDec_all_digits hne hall

theorem numTok_parse : ∀ {l tok : List Char}, numTok l = some tok →
    (parseDec tok).isSome := by
  intro l
  induction l with
  | nil => intro tok h; exact Option.noConfusion h
  | cons c cs ih =>
    intro tok h
    unfold numTok at h
    by_cases hc : c.isDigit = true
    · rw [if_pos hc] at h
      injection h with h
      rw [← h]
      exact grabNum_parse hc
    · rw [if_neg hc] at h
      exact ih h

theorem ratingSlash_some {tok rest t : List Char} (h : ratingSlash tok rest = some t) :
    t = tok := by
  unfold ratingSlash at h
  split at h
  · split at h
    · injection h with h; rw [h]
    · exact Option.noConfusion h
  · exact Option.noConfusion h

theorem tryRating_parse {c : Char} {cs tok : List Char} (hc : c.isDigit = true)
    (h : tryRating (c :: cs) = some tok) : (parseDec tok).isSome := by
  have hd1 : (c :: cs).takeWhile Char.isDigit = c :: cs.takeWhile Char.isDigit := by
    simp [List.takeWhile_cons, hc]
  have hne : (c :: cs).takeWhile Char.isDigit ≠ [] := by simp [hd1]
  have hall : ∀ x ∈ (c :: cs).takeWhile Char.isDigit, Char.isDigit x = true :=
    fun x hx => List.mem_takeWhile_imp hx
  unfold tryRating at h
  split at h
  · rw [ratingSlash_some h]
    exact parseDec_digits_dot hne hall (fun x hx => List.mem_takeWhile_imp hx)
  · rw [ratingSlash_some h]
    exact parseDec_all_digits hne hall

theorem ratingTok_parse : ∀ {l tok : List Char}, ratingTok l = some tok →
    (parseDec tok).isSome := by
  intro l
  induction l with
  | nil => intro tok h; exact Option.noConfusion h
  | cons c cs ih =>
    intro tok h
    unfold ratingTok at h
    by_cases hc : c.isDigit = true
    · rw [if_pos hc] at h
      split at h
      · injection h with h
        rw [← h]
        exact tryRating_parse hc (by assumption)
      · exact ih h
    · rw [if_neg hc] at h
      exact ih h

/-! ### Cleaner output shapes and totality -/

theorem clean_price_range {a c : Cell} (h : clean_price a = .ok c) :
    numOrNull c = true := by
  cases a <;> simp only [clean_price] at h <;> try (injection h with h; rw [← h]; rfl)
  split at h
  · injection h with h; rw [← h]; rfl
  · split at h
    · injection h with h; rw [← h]; rfl
    · split at h
      · injection h with h; rw [← h]; rfl
      · split at h
        · exact Except.noConfusion h
        · injection h with h; rw [← h]; rfl

theorem clean_price_isOk {a : Cell} :
    (clean_price a).isOk = !(price_token_unparseable a) := by
  cases a <;> simp only [clean_price, price_token_unparseable] <;> try rfl
  split
  · rfl
  · split
    · rfl
    · split
      · rfl
      · rename_i tok heq
        cases hpd : parseDec (tok.filter (fun c => c ≠ ',')) <;>
          simp [hpd, Except.isOk, Except.toBool]

theorem clean_rating_range {a c : Cell} (h : clean_rating a = .ok c) :
    ratingOrNull c = true := by
  cases a <;> simp only [clean_rating] at h <;> try (injection h with h; rw [← h]; rfl)
  split at h
  · injection h with h; rw [← h]; rfl
  · split at h
    · injection h with h; rw [← h]; rfl
    · split at h
      · split at h
        · exact Except.noConfusion h
        · rename_i q hq
          injection h with h
          rw [← h]
          simp [ratingOrNull, parseDec_nonneg hq]
      · split at h
        · split at h
          · exact Except.noConfusion h
          · rename_i q hq
            injection h with h
            rw [← h]
            simp [ratingOrNull, parseDec_nonneg hq]
        · injection h with h; rw [← h]; rfl

theorem clean_rating_isOk {a : Cell} : (clean_rating a).isOk = true := by
  cases a <;> simp only [clean_rating] <;> try rfl
  split
  · rfl
  · split
    · rfl
    · split
      · rename_i tok htok
        cases hpd : parseDec tok with
        | none =>
          have := ratingTok_parse htok
          rw [hpd] at this
          exact absurd this (by simp)
        | some q => simp [hpd, Except.isOk, Except.toBool]
      · split
        · rename_i tok htok
          cases hpd : parseDec tok with
          | none =>
            have := numTok_parse htok
            rw [hpd] at this
            exact absurd this (by simp)
          | some q => simp [hpd, Except.isOk, Except.toBool]
        · rfl

theorem clean_colors_range {a c : Cell} (h : clean_colors a = .ok c) :
    intOrNull c = true := by
  cases a <;> simp only [clean_colors] at h <;> try (injection h with h; rw [← h]; rfl)
  split at h
  · injection h with h; rw [← h]; rfl
  · split at h
    · injection h with h
      rw [← h]
      simp [intOrNull]
    · injection h with h; rw [← h]; rfl

theorem clean_colors_isOk {a : Cell} : (clean_colors a).isOk = true := by
  cases a <;> simp only [clean_colors] <;> try rfl
  split
  · rfl
  · split <;> rfl

theorem clean_size_range {a c : Cell} (h : clean_size a = .ok c) :
    strOrNull c = true := by
  cases a <;> simp only [clean_size] at h <;> try (injection h with h; rw [← h]; rfl)
  split at h
  · injection h with h; rw [← h]; rfl
  · split at h <;> (injection h with h; rw [← h]; rfl)

theorem clean_size_isOk {a : Cell} : (clean_size a).isOk = true := by
  cases a <;> simp only [clean_size] <;> try rfl
  split
  · rfl
  · split <;> rfl

theorem clean_gender_range {a c : Cell} (h : clean_gender a = .ok c) :
    strOrNull c = true := by
  cases a <;> simp only [clean_gender] at h <;> try (injection h with h; rw [← h]; rfl)
  split at h
  · injection h with h; rw [← h]; rfl
  · split at h <;> (injection h with h; rw [← h]; rfl)

theorem clean_gender_isOk {a : Cell} : (clean_gender a).isOk = true := by
  cases a <;> simp only [clean_gender] <;> try rfl
  split
  · rfl
  · split <;> rfl

/-! ### Column application, dedup and astype lemmas -/

theorem applyCol_mem {clean : Cell → Except Unit Cell} {get : Rec → Cell}
    {set : Rec → Cell → Rec} {P Q : Rec → Prop} :
    ∀ {l l' : List Rec}, applyCol clean get set l = .ok l' →
      (∀ r ∈ l, Q r) →
      (∀ r c, Q r → clean (get r) = .ok c → P (set r c)) →
      ∀ x ∈ l', P x := by
  intro l
  induction l with
  | nil =>
    intro l' h _ _ x hx
    unfold applyCol at h
    injection h with h
    rw [← h] at hx
    exact absurd hx (by simp)
  | cons r rs ih =>
    intro l' h hQ hPQ x hx
    unfold applyCol at h
    split at h
    · exact Except.noConfusion h
    · split at h
      · exact Except.noConfusion h
      · injection h with h
        rw [← h] at hx
        rcases List.mem_cons.mp hx with hx | hx
        · rw [hx]
          exact hPQ r _ (hQ r (by simp)) (by assumption)
        · exact ih (by assumption) (fun t ht => hQ t (by simp [ht])) hPQ x hx

theorem pdDedupAux_mem : ∀ {l seen : List Rec} {x : Rec},
    x ∈ pdDedupAux seen l → x ∈ l ∧ x ∉ seen := by
  intro l
  induction l with
  | nil => intro seen x hx; exact absurd hx (by simp [pdDedupAux])
  | cons r rs ih =>
    intro seen x hx
    unfold pdDedupAux at hx
    by_cases hr : r ∈ seen
    · rw [if_pos hr] at hx
      obtain ⟨h1, h2⟩ := ih hx
      exact ⟨by simp [h1], h2⟩
    · rw [if_neg hr] at hx
      rcases List.mem_cons.mp hx with hx | hx
      · exact ⟨by simp [hx], by rw [hx]; exact hr⟩
      · obtain ⟨h1, h2⟩ := ih hx
        refine ⟨by simp [h1], fun hc => h2 (by simp [hc])⟩

theorem pdDedupAux_nodup : ∀ {l seen : List Rec}, (pdDedupAux seen l).Nodup := by
  intro l
  induction l with
  | nil => intro seen; simp [pdDedupAux]
  | cons r rs ih =>
    intro seen
    unfold pdDedupAux
    by_cases hr : r ∈ seen
    · rw [if_pos hr]; exact ih
    · rw [if_neg hr]
      refine List.nodup_cons.mpr ⟨?_, ih⟩
      intro hc
      exact (pdDedupAux_mem hc).2 (by simp)

theorem pdDedup_mem {l : List Rec} {x : Rec} (hx : x ∈ pdDedup l) : x ∈ l :=
  (pdDedupAux_mem hx).1

theorem pdDedup_nodup {l : List Rec} : (pdDedup l).Nodup := pdDedupAux_nodup

/-- On a fully typed row the three `astype` coercions change nothing. -/
theorem astypes_id {r : Rec} (h1 : isStr r.title = true) (h2 : isNum r.price = true)
    (h3 : isNum r.rating = true) (h4 : isInt r.colors = true)
    (h5 : isStr r.size = true) (h6 : isStr r.gender = true) : astypes r = r := by
  cases r with
  | mk title price rating colors size gender timestamp =>
    cases title <;> simp [isStr] at h1
    cases price <;> simp [isNum] at h2
    cases rating <;> simp [isNum] at h3
    cases colors <;> simp [isInt] at h4
    cases size <;> simp [isStr] at h5
    cases gender <;> simp [isStr] at h6
    rfl

/-! ### Cell classification lemmas -/

theorem cell_num {c : Cell} (h1 : numOrNull c = true) (h2 : isNull c = false) :
    isNum c = true := by
  cases c <;> simp_all [numOrNull, isNull, isNum]

theorem cell_rating {c : Cell} (h1 : ratingOrNull c = true) (h2 : isNull c = false) :
    ∃ q : ℚ, c = Cell.pyNum q ∧ 0 ≤ q := by
  cases c <;> simp_all [ratingOrNull, isNull]

theorem cell_int {c : Cell} (h1 : intOrNull c = true) (h2 : isNull c = false) :
    isInt c = true := by
  cases c <;> simp_all [intOrNull, isNull, isInt]

theorem cell_str {c : Cell} (h1 : strOrNull c = true) (h2 : isNull c = false) :
    isStr c = true := by
  cases c <;> simp_all [strOrNull, isNull, isStr]

theorem cell_str_raw {c : Cell} (h1 : rawCell c = true) (h2 : isNull c = false) :
    isStr c = true := by
  cases c <;> simp_all [rawCell, isNull, isStr]

/-! ### Decomposition of a successful transform -/

/-- The facts a successful `transform_data` run establishes: all checks
passed, the cleaning chain succeeded, and the output is the dedup of the
doubly filtered cleaned rows, coerced. -/
theorem transform_ok_destruct {data out : List Rec}
    (h : transform_data data = .ok out) :
    data.isEmpty = false ∧
    hasCol data (fun r => r.rating) = true ∧
    hasCol data (fun r => r.timestamp) = true ∧
    ∃ d1 d2 d3 d4 d5,
      applyCol clean_price (fun r => r.price) (fun r c => { r with price := c }) data = .ok d1 ∧
      applyCol clean_rating (fun r => r.rating) (fun r c => { r with rating := c }) d1 = .ok d2 ∧
      applyCol clean_colors (fun r => r.colors) (fun r c => { r with colors := c }) d2 = .ok d3 ∧
      applyCol clean_size (fun r => r.size) (fun r c => { r with size := c }) d3 = .ok d4 ∧
      applyCol clean_gender (fun r => r.gender) (fun r c => { r with gender := c }) d4 = .ok d5 ∧
      out = (pdDedup
        ((d5.filter (fun r => r.title ≠ Cell.pyStr "Unknown Product")).filter
          (keep_row (hasCol data (fun r => r.timestamp))))).map astypes := by
  unfold transform_data at h
  split at h
  · exact Except.noConfusion h
  · split at h
    · exact Except.noConfusion h
    · split at h
      · exact Except.noConfusion h
      · split at h
        · exact Except.noConfusion h
        · split at h
          · exact Except.noConfusion h
          · split at h
            · exact Except.noConfusion h
            · split at h
              · exact Except.noConfusion h
              · split at h
                · exact Except.noConfusion h
                · split at h
                  · exact Except.noConfusion h
                  · split at h
                    · exact Except.noConfusion h
                    · split at h
                      · exact Except.noConfusion h
                      · split at h
                        · exact Except.noConfusion h
                        · split at h
                          · exact Except.noConfusion h
                          · injection h with h
                            rename_i hemp hp x1 d1 h1 hr x2 d2 h2 hc x3 d3 h3 hsz x4 d4 h4 hg x5 d5 h5 htl hts
                            refine ⟨by simpa using hemp, by simpa using hr,
                              by simpa using hts, d1, d2, d3, d4, d5,
                              h1, h2, h3, h4, h5, h.symm⟩

/-- Row-level facts about a successful transform, stated on the list
before the final `astype` coercions (which are then the identity). -/
theorem transform_pre {data out : List Rec}
    (hraw : ∀ r ∈ data, rawCell r.title = true ∧ rawCell r.timestamp = true)
    (h : transform_data data = .ok out) :
    ∃ L : List Rec, out = L.map astypes ∧ L.Nodup ∧
      ∀ y ∈ L,
        isStr y.title = true ∧ isNum y.price = true ∧
        (∃ q : ℚ, y.rating = Cell.pyNum q ∧ 0 ≤ q) ∧
        isInt y.colors = true ∧ isStr y.size = true ∧ isStr y.gender = true ∧
        isStr y.timestamp = true ∧ y.title ≠ Cell.pyStr "Unknown Product" ∧
        astypes y = y := by
  obtain ⟨hemp, hrcol, htscol, d1, d2, d3, d4, d5, h1, h2, h3, h4, h5, hout⟩ :=
    transform_ok_destruct h
  have S1 : ∀ x ∈ d1, numOrNull x.price = true ∧ rawCell x.title = true ∧
      rawCell x.timestamp = true :=
    applyCol_mem h1 hraw (fun r c hQ hc => ⟨clean_price_range hc, hQ.1, hQ.2⟩)
  have S2 : ∀ x ∈ d2, numOrNull x.price = true ∧ ratingOrNull x.rating = true ∧
      rawCell x.title = true ∧ rawCell x.timestamp = true :=
    applyCol_mem h2 S1 (fun r c hQ hc => ⟨hQ.1, clean_rating_range hc, hQ.2.1, hQ.2.2⟩)
  have S3 : ∀ x ∈ d3, numOrNull x.price = true ∧ ratingOrNull x.rating = true ∧
      intOrNull x.colors = true ∧ rawCell x.title = true ∧ rawCell x.timestamp = true :=
    applyCol_mem h3 S2 (fun r c hQ hc =>
      ⟨hQ.1, hQ.2.1, clean_colors_range hc, hQ.2.2.1, hQ.2.2.2⟩)
  have S4 : ∀ x ∈ d4, numOrNull x.price = true ∧ ratingOrNull x.rating = true ∧
      intOrNull x.colors = true ∧ strOrNull x.size = true ∧
      rawCell x.title = true ∧ rawCell x.timestamp = true :=
    applyCol_mem h4 S3 (fun r c hQ hc =>
      ⟨hQ.1, hQ.2.1, hQ.2.2.1, clean_size_range hc, hQ.2.2.2.1, hQ.2.2.2.2⟩)
  have S5 : ∀ x ∈ d5, numOrNull x.price = true ∧ ratingOrNull x.rating = true ∧
      intOrNull x.colors = true ∧ strOrNull x.size = true ∧ strOrNull x.gender = true ∧
      rawCell x.title = true ∧ rawCell x.timestamp = true :=
    applyCol_mem h5 S4 (fun r c hQ hc =>
      ⟨hQ.1, hQ.2.1, hQ.2.2.1, hQ.2.2.2.1, clean_gender_range hc,
        hQ.2.2.2.2.1, hQ.2.2.2.2.2⟩)
  refine ⟨_, hout, pdDedup_nodup, ?_⟩
  intro y hy
  have hy2 := pdDedup_mem hy
  rw [List.mem_filter] at hy2
  obtain ⟨hy3, hkeep⟩ := hy2
  rw [List.mem_filter] at hy3
  obtain ⟨hy5, htitle⟩ := hy3
  have hprops := S5 y hy5
  rw [htscol] at hkeep
  simp only [keep_row, Bool.true_and, Bool.not_or, Bool.and_eq_true,
    Bool.not_eq_true'] at hkeep
  obtain ⟨⟨⟨⟨⟨⟨n1, n2⟩, n3⟩, n4⟩, n5⟩, n6⟩, n7⟩ := hkeep
  have e1 : isStr y.title = true := cell_str_raw hprops.2.2.2.2.2.1 n1
  have e2 : isNum y.price = true := cell_num hprops.1 n2
  have e3 := cell_rating hprops.2.1 n3
  have e4 : isInt y.colors = true := cell_int hprops.2.2.1 n4
  have e5 : isStr y.size = true := cell_str hprops.2.2.2.1 n5
  have e6 : isStr y.gender = true := cell_str hprops.2.2.2.2.1 n6
  have e7 : isStr y.timestamp = true := cell_str_raw hprops.2.2.2.2.2.2 n7
  obtain ⟨q, hq, hq0⟩ := e3
  have e3n : isNum y.rating = true := by rw [hq]; rfl
  exact ⟨e1, e2, ⟨q, hq, hq0⟩, e4, e5, e6, e7, of_decide_eq_true htitle,
    astypes_id e1 e2 e3n e4 e5 e6⟩

/-- The rating cells of a successful transform's output are always
nonnegative numbers, with no assumption on the input rows. -/
theorem transform_rating_facts {data out : List Rec}
    (h : transform_data data = .ok out) :
    ∀ x ∈ out, ∃ q : ℚ, x.rating = Cell.pyNum q ∧ 0 ≤ q := by
  obtain ⟨hemp, hrcol, htscol, d1, d2, d3, d4, d5, h1, h2, h3, h4, h5, hout⟩ :=
    transform_ok_destruct h
  have T2 : ∀ x ∈ d2, ratingOrNull x.rating = true :=
    applyCol_mem h2 (fun _ _ => trivial) (fun r c _ hc => clean_rating_range hc)
  have T3 : ∀ x ∈ d3, ratingOrNull x.rating = true :=
    applyCol_mem h3 T2 (fun r c hQ _ => hQ)
  have T4 : ∀ x ∈ d4, ratingOrNull x.rating = true :=
    applyCol_mem h4 T3 (fun r c hQ _ => hQ)
  have T5 : ∀ x ∈ d5, ratingOrNull x.rating = true :=
    applyCol_mem h5 T4 (fun r c hQ _ => hQ)
  intro x hx
  rw [hout] at hx
  obtain ⟨y, hy, hxy⟩ := List.mem_map.mp hx
  have hy2 := pdDedup_mem hy
  rw [List.mem_filter] at hy2
  obtain ⟨hy3, hkeep⟩ := hy2
  rw [List.mem_filter] at hy3
  obtain ⟨hy5, _⟩ := hy3
  rw [htscol] at hkeep
  simp only [keep_row, Bool.true_and, Bool.not_or, Bool.and_eq_true,
    Bool.not_eq_true'] at hkeep
  obtain ⟨q, hq, hq0⟩ := cell_rating (T5 y hy5) hkeep.1.1.1.1.2
  refine ⟨q, ?_, hq0⟩
  rw [← hxy]
  show asFloat y.rating = Cell.pyNum q
  rw [hq]
  rfl

theorem isStr_not_null {c : Cell} (h : isStr c = true) : isNull c = false := by
  cases c <;> simp_all [isStr, isNull]

theorem isNum_not_null {c : Cell} (h : isNum c = true) : isNull c = false := by
  cases c <;> simp_all [isNum, isNull]

theorem isInt_not_null {c : Cell} (h : isInt c = true) : isNull c = false := by
  cases c <;> simp_all [isInt, isNull]

/-! ### Claim theorems -/

/-- C1: the code is not idempotent on already-clean data.  Evaluated at
the failing input: transforming the sample raw record yields one clean
row, but transforming that clean row again returns the empty dataset —
every cleaner maps the already-typed (non-string) values to missing and
`dropna` deletes the row, contradicting the required "no rows dropped,
no values changed". -/
theorem C1_transform_twice_drops_all :
    transform_data [rawSample] = .ok [cleanSample] ∧
    transform_data [cleanSample] = .ok ([] : List Rec) :=
  ⟨by decide, by decide⟩

/-- C2 counterexample: `clean_price` is not total — on the string `","`
the price regex matches the bare comma, comma-stripping leaves `""`, and
`float("")` raises, re-raised as `ValueError`. -/
theorem C2_counterexample : clean_price (.pyStr ",") = .error () := by decide

/-- C2 (amended): `clean_rating`, `clean_colors`, `clean_size` and
`clean_gender` are total on every input; `clean_price` raises exactly on
strings whose first price token strips to no digits, and is total
everywhere else. -/
theorem C2_cleaner_totality :
    (∀ a : Cell, (clean_rating a).isOk = true ∧ (clean_colors a).isOk = true ∧
      (clean_size a).isOk = true ∧ (clean_gender a).isOk = true) ∧
    ∀ a : Cell, (clean_price a).isOk = !(price_token_unparseable a) :=
  ⟨fun _ => ⟨clean_rating_isOk, clean_colors_isOk, clean_size_isOk, clean_gender_isOk⟩,
   fun _ => clean_price_isOk⟩

/-- C3 counterexample: `"$5 UNAVAILABLE"` contains "unavailable"
case-insensitively, yet `clean_price` converts it to 80000 instead of
returning missing — only the exact spellings `Unavailable` and
`unavailable` are detected. -/
theorem C3_counterexample :
    listHasSub (lowerL "unavailable".toList)
      (lowerL (pyStrip "$5 UNAVAILABLE".toList)) = true ∧
    clean_price (.pyStr "$5 UNAVAILABLE") = .ok (.pyNum 80000) :=
  ⟨by decide, by decide⟩

/-- C3 (amended): `clean_price` returns missing for every string whose
stripped text contains the exact substring `Unavailable` or
`unavailable`; other case variants are not detected. -/
theorem C3_price_unavailable_exact (s : String)
    (h : (listHasSub "Unavailable".toList (pyStrip s.toList) ||
          listHasSub "unavailable".toList (pyStrip s.toList)) = true) :
    clean_price (.pyStr s) = .ok Cell.pyNone := by
  by_cases hs : s = ""
  · rw [hs]; rfl
  · simp only [clean_price]
    rw [if_neg hs]
    split
    · rfl
    · rename_i hcond
      exact absurd h hcond

/-- C3 witness: the sentinel price text of the site. -/
theorem C3_witness : clean_price (.pyStr "Price Unavailable") = .ok Cell.pyNone :=
  C3_price_unavailable_exact "Price Unavailable" (by decide)

/-- C4 counterexample: `clean_rating` accepts numerators above 5 —
`"Rating: 9.9 / 5"` yields 9.9, outside the claimed 0.0–5.0 range. -/
theorem C4_counterexample :
    clean_rating (.pyStr "Rating: 9.9 / 5") = .ok (.pyNum (mkRat 99 10)) ∧
    ¬ (mkRat 99 10 ≤ 5) :=
  ⟨by decide, by decide⟩

/-- C4 (amended): every value `clean_rating` returns is nonnegative (the
regexes only match unsigned numerals), and the rating of every row of a
successful transform is a nonnegative number; no 5.0 upper bound is
enforced. -/
theorem C4_rating_nonnegative :
    (∀ (a : Cell) (q : ℚ), clean_rating a = .ok (.pyNum q) → 0 ≤ q) ∧
    ∀ (data out : List Rec), transform_data data = .ok out →
      ∀ x ∈ out, ∃ q : ℚ, x.rating = Cell.pyNum q ∧ 0 ≤ q := by
  refine ⟨?_, fun data out h => transform_rating_facts h⟩
  intro a q h
  have hr := clean_rating_range h
  simpa [ratingOrNull] using hr

/-- C4 witness: the sample rating and the sample transform output. -/
theorem C4_witness :
    0 ≤ mkRat 39 10 ∧ ∃ q : ℚ, cleanSample.rating = Cell.pyNum q ∧ 0 ≤ q :=
  ⟨C4_rating_nonnegative.1 (.pyStr "Rating: 3.9 / 5") (mkRat 39 10) (by decide),
   C4_rating_nonnegative.2 [rawSample] [cleanSample] (by decide) cleanSample (by decide)⟩

/-- C5 counterexample: the code disagrees with the spec's reference
definition — on `"$5 UNAVAILABLE"` the reference returns missing (the
text contains "unavailable" case-insensitively) while `clean_price`
converts the token and returns 80000. -/
theorem C5_counterexample :
    clean_price (.pyStr "$5 UNAVAILABLE") = .ok (.pyNum 80000) ∧
    clean_price_spec (.pyStr "$5 UNAVAILABLE") = Cell.pyNone :=
  ⟨by decide, by decide⟩

/-- C5 (amended): `clean_price` agrees with the spec's reference
definition on every string whose case-insensitive "unavailable" content
is also caught by the code's two exact spellings and whose matched token
parses (the code raises on digit-free tokens where the reference returns
missing); in particular the four cited examples hold. -/
theorem C5_price_matches_reference :
    (∀ s : String,
        (listHasSub (lowerL "unavailable".toList) (lowerL (pyStrip s.toList)) = true →
          (listHasSub "Unavailable".toList (pyStrip s.toList) ||
           listHasSub "unavailable".toList (pyStrip s.toList)) = true) →
        price_token_unparseable (.pyStr s) = false →
        clean_price (.pyStr s) = .ok (clean_price_spec (.pyStr s))) ∧
    clean_price (.pyStr "$102.15") = .ok (.pyNum 1634400) ∧
    clean_price (.pyStr "$1,234.56") = .ok (.pyNum 19752960) ∧
    clean_price (.pyStr "Price Unavailable") = .ok Cell.pyNone ∧
    clean_price Cell.pyNone = .ok Cell.pyNone ∧
    clean_price Cell.absent = .ok Cell.pyNone := by
  refine ⟨?_, by decide, by decide, by decide, by decide, by decide⟩
  intro s hci hparse
  by_cases hs : s = ""
  · rw [hs]; decide
  · simp only [clean_price, clean_price_spec]
    rw [if_neg hs]
    by_cases ht : pyStrip s.toList = []
    · rw [ht]
      decide
    · rw [if_neg ht]
      by_cases hex : (listHasSub "Unavailable".toList (pyStrip s.toList) ||
          listHasSub "unavailable".toList (pyStrip s.toList)) = true
      · rw [if_pos hex]
        have hor : listHasSub "Unavailable".toList (pyStrip s.toList) = true ∨
            listHasSub "unavailable".toList (pyStrip s.toList) = true := by
          cases hA : listHasSub "Unavailable".toList (pyStrip s.toList)
          · cases hB : listHasSub "unavailable".toList (pyStrip s.toList)
            · rw [hA, hB] at hex
              exact absurd hex (by simp)
            · exact Or.inr rfl
          · exact Or.inl rfl
        have hcit : listHasSub (lowerL "unavailable".toList)
            (lowerL (pyStrip s.toList)) = true := by
          rcases hor with hu | hu
          · have hl := listHasSub_lower hu
            rw [show lowerL "Unavailable".toList = lowerL "unavailable".toList from by decide] at hl
            exact hl
          · exact listHasSub_lower hu
        rw [if_pos hcit]
      · rw [if_neg hex]
        have hci' : ¬ (listHasSub (lowerL "unavailable".toList)
            (lowerL (pyStrip s.toList)) = true) := fun hcc => hex (hci hcc)
        rw [if_neg hci']
        simp only [price_token_unparseable] at hparse
        rw [if_neg hs, if_neg hex] at hparse
        cases hpt : priceTok (pyStrip s.toList) with
        | none => simp only [hpt]
        | some tok =>
          simp only [hpt]
          simp only [hpt] at hparse
          cases hpd : parseDec (tok.filter (fun c => c ≠ ',')) with
          | none =>
            rw [hpd] at hparse
            exact absurd hparse (by simp)
          | some q => simp only [hpd]

/-- C5 witness: the site's standard price format satisfies both side
conditions and the code then equals the reference. -/
theorem C5_witness :
    clean_price (.pyStr "$102.15") = .ok (clean_price_spec (.pyStr "$102.15")) :=
  C5_price_matches_reference.1 "$102.15" (fun h => by revert h; decide) (by decide)

/-- C6: for raw text records (the data model's RawProductRecord shape),
a dataset accepted by `transform_data` has no duplicate rows, no null in
any cell, no row titled `Unknown Product`, and presents the seven named
columns in the fixed order. -/
theorem C6_transform_invariants :
    ∀ (data out : List Rec), (∀ r ∈ data, raw_record r = true) →
      transform_data data = .ok out →
      out.Nodup ∧ ∀ x ∈ out, no_nulls x = true ∧
        x.title ≠ Cell.pyStr "Unknown Product" ∧
        (rec_row x).map Prod.fst = columns_order := by
  intro data out hraw h
  have hraw' : ∀ r ∈ data, rawCell r.title = true ∧ rawCell r.timestamp = true := by
    intro r hr
    have hb := hraw r hr
    simp only [raw_record, Bool.and_eq_true] at hb
    exact ⟨hb.1.1.1.1.1.1, hb.2⟩
  obtain ⟨L, hout, hnodup, hfacts⟩ := transform_pre hraw' h
  have hLid : ∀ y ∈ L, astypes y = y := fun y hy => (hfacts y hy).2.2.2.2.2.2.2.2
  have houtL : out = L := by
    have hmc : L.map astypes = L.map (fun y => y) := List.map_congr_left hLid
    rw [hout, hmc, List.map_id']
  constructor
  · rw [houtL]
    exact hnodup
  · intro x hx
    rw [houtL] at hx
    obtain ⟨e1, e2, ⟨q, hq, hq0⟩, e4, e5, e6, e7, htitle, _⟩ := hfacts x hx
    have e3 : isNum x.rating = true := by rw [hq]; rfl
    refine ⟨?_, htitle, rfl⟩
    simp [no_nulls, isStr_not_null e1, isNum_not_null e2, isNum_not_null e3,
      isInt_not_null e4, isStr_not_null e5, isStr_not_null e6, isStr_not_null e7]

/-- C6 witness: the sample batch. -/
theorem C6_witness :
    ([cleanSample] : List Rec).Nodup ∧
      ∀ x ∈ ([cleanSample] : List Rec), no_nulls x = true ∧
        x.title ≠ Cell.pyStr "Unknown Product" ∧
        (rec_row x).map Prod.fst = columns_order :=
  C6_transform_invariants [rawSample] [cleanSample] (by decide) (by decide)

/-- The scrape loop preserves "every accumulated record carries the run
timestamp". -/
theorem scrape_fold_ts {pg : ℤ → Option (List Card)} {ts : String} {sp : ℤ} :
    ∀ (idxs : List ℕ) (acc : List Rec),
      (∀ r ∈ acc, r.timestamp = Cell.pyStr ts) →
      ∀ r ∈ idxs.foldl (scrape_step pg ts sp) acc, r.timestamp = Cell.pyStr ts := by
  intro idxs
  induction idxs with
  | nil => intro acc hacc r hr; exact hacc r hr
  | cons i is ih =>
    intro acc hacc r hr
    rw [List.foldl_cons] at hr
    refine ih _ ?_ r hr
    intro x hx
    unfold scrape_step at hx
    cases hpg : pg (sp + i) with
    | none =>
      simp only [hpg] at hx
      exact hacc x hx
    | some cards =>
      simp only [hpg] at hx
      cases hpp : parse_page cards with
      | error e =>
        simp only [hpp] at hx
        exact hacc x hx
      | ok prods =>
        simp only [hpp] at hx
        rcases List.mem_append.mp hx with hx | hx
        · exact hacc x hx
        · obtain ⟨p, _, hp⟩ := List.mem_map.mp hx
          rw [← hp]
          rfl

/-- C7: one run of the scraper computes a single timestamp (read once at
the start, the `ts` parameter) and every record in the returned sequence
carries exactly that timestamp, whatever pages produced it. -/
theorem C7_batch_timestamp :
    ∀ (pg : ℤ → Option (List Card)) (ts : String) (s e : ℤ) (out : List Rec),
      scrape_all_pages pg ts s e = .ok out →
      ∀ r ∈ out, r.timestamp = Cell.pyStr ts := by
  intro pg ts s e out h r hr
  unfold scrape_all_pages at h
  split at h
  · exact Except.noConfusion h
  · injection h with h
    rw [← h] at hr
    exact scrape_fold_ts _ [] (by simp) r hr

/-- C7 witness: a one-page run over the sample card. -/
theorem C7_witness : scrapedSample.timestamp = Cell.pyStr "2025-01-02 10:00:00" :=
  C7_batch_timestamp (fun _ => some [cardSample]) "2025-01-02 10:00:00" 1 1
    [scrapedSample] (by decide) scrapedSample (by decide)

/-- C8: for any page index outside [1, 50] the fetcher fails with the
`InvalidArgument` kind, with an empty request log — no network access,
whatever the network would answer. -/
theorem C8_fetch_page_invalid :
    ∀ (net : String → Option String) (p : ℤ), p < 1 ∨ p > 50 →
      fetch_page net p = (.error .invalidArgument, []) := by
  intro net p h
  unfold fetch_page
  rw [if_pos h]

/-- C8 witness: the three indices named by the spec. -/
theorem C8_witness :
    fetch_page (fun _ => some "") 0 = (.error .invalidArgument, []) ∧
    fetch_page (fun _ => some "") 51 = (.error .invalidArgument, []) ∧
    fetch_page (fun _ => some "") (-1) = (.error .invalidArgument, []) :=
  ⟨C8_fetch_page_invalid (fun _ => some "") 0 (by decide),
   C8_fetch_page_invalid (fun _ => some "") 51 (by decide),
   C8_fetch_page_invalid (fun _ => some "") (-1) (by decide)⟩

/-- C9: a page with located cards but no extractable titles parses to an
empty sequence successfully; the NoRecordsFound failure occurs exactly
when zero cards were located. -/
theorem C9_parse_empty_result :
    (∀ cards : List Card, cards ≠ [] → (∀ c ∈ cards, c.title = none) →
      parse_page cards = .ok []) ∧
    ∀ cards : List Card, parse_page cards = .error () ↔ cards = [] := by
  constructor
  · intro cards hne htitles
    unfold parse_page
    rw [if_neg (by simp [List.isEmpty_iff, hne])]
    have hfm : cards.filterMap (fun c => (parse_product c).toOption) = [] := by
      rw [List.filterMap_eq_nil_iff]
      intro c hc
      unfold parse_product
      rw [htitles c hc]
      rfl
    rw [hfm]
  · intro cards
    constructor
    · intro h
      unfold parse_page at h
      split at h
      · rename_i hc
        simpa [List.isEmpty_iff] using hc
      · exact Except.noConfusion h
    · intro h
      rw [h]
      rfl

/-- C9 witness: one title-less card, and the empty page. -/
theorem C9_witness :
    parse_page [noTitleCard] = .ok [] ∧
    (parse_page ([] : List Card) = .error () ↔ ([] : List Card) = []) :=
  ⟨C9_parse_empty_result.1 [noTitleCard] (by decide) (by decide),
   C9_parse_empty_result.2 []⟩

/-- C10: when no input record carries the `Rating` key at all, the
DataFrame has no such column and `transform_data` fails for the whole
batch; a successful transform conversely requires at least one record
with the key (rows merely lacking it individually degrade to missing and
are dropped, per C6's no-null invariant). -/
theorem C10_missing_rating_column_fails :
    (∀ data : List Rec, data ≠ [] → (∀ r ∈ data, r.rating = Cell.absent) →
      ∃ err, transform_data data = .error err) ∧
    ∀ (data out : List Rec), transform_data data = .ok out →
      hasCol data (fun r => r.rating) = true := by
  constructor
  · intro data hne habs
    unfold transform_data
    rw [if_neg (by simp [List.isEmpty_iff, hne])]
    by_cases hp : hasCol data (fun r => r.price) = true
    · rw [if_neg (not_not_intro hp)]
      cases hap : applyCol clean_price (fun r => r.price)
          (fun r c => { r with price := c }) data with
      | error e =>
        simp only [hap]
        exact ⟨.cleanError, rfl⟩
      | ok d1 =>
        simp only [hap]
        have hrc : hasCol data (fun r => r.rating) = false := by
          unfold hasCol
          rw [List.any_eq_false]
          intro r hr
          simp [habs r hr]
        rw [if_pos (by simp [hrc])]
        exact ⟨.keyError, rfl⟩
    · rw [if_pos hp]
      exact ⟨.keyError, rfl⟩
  · intro data out h
    exact (transform_ok_destruct h).2.1

/-- C10 witness: a batch with no Rating key anywhere fails; the sample
batch has the key and transforms. -/
theorem C10_witness :
    (∃ err, transform_data [noRatingRec] = .error err) ∧
    hasCol [rawSample] (fun r => r.rating) = true :=
  ⟨C10_missing_rating_column_fails.1 [noRatingRec] (by decide) (by decide),
   C10_missing_rating_column_fails.2 [rawSample] [cleanSample] (by decide)⟩

end EtlFashion
